import Mathlib

/-!
Verification of the checkout UI extension core
(`src/extensions/checkout-ui/src/Checkout.jsx`).

The JavaScript is shallowly embedded: the loosely-typed values the extension
manipulates (settings values, rich-text nodes) are modelled by the inductive
type `JVal`; the renderable fragments produced by the rich-text renderer by
`RVal`.  All functions are direct translations of the source, with JavaScript
truthiness (`a || b`, `filter(Boolean)`) made explicit.  The modelled value
universe covers null/undefined (collapsed, since the source treats them
identically), booleans, integer numbers, strings, and objects exposing the
five fields the source reads (`type`, `value`, `text`, `url`, `children`,
the last one either absent or an array).
-/

namespace Checkout

/-- JavaScript `a || b` for strings: the empty string is falsy. -/
def jsOr (a b : String) : String := if a = "" then b else a

/-- JavaScript `a || b` where `a` is a possibly-absent string field:
`undefined` and `""` are both falsy. -/
def jsOrS (a : Option String) (b : String) : String :=
  match a with
  | some s => jsOr s b
  | none => b

/-- JavaScript `s.includes(pat)`: `pat` occurs in `s` as a contiguous
substring. -/
def strIncludes (s pat : String) : Bool := decide (pat.data <:+: s.data)

/-- JavaScript `s.split(sep)` for a one-character separator, character by
character: splitting the empty string yields `[""]`, and consecutive
separators yield empty pieces, as in JavaScript. -/
def jsSplitChars (p : Char → Bool) : List Char → List (List Char)
  | [] => [[]]
  | c :: cs =>
    if p c then [] :: jsSplitChars p cs
    else
      match jsSplitChars p cs with
      | [] => [[c]]
      | piece :: rest => (c :: piece) :: rest

/-- `s.split(',')` on strings. -/
def jsSplit (sep : Char) (s : String) : List String :=
  (jsSplitChars (fun ch => ch = sep) s.data).map String.mk

/-- JavaScript `s.trim()`: strip leading and trailing whitespace.  (The
model covers the ASCII whitespace of `Char.isWhitespace`; JavaScript also
strips some rarer Unicode space characters.) -/
def jsTrim (s : String) : String :=
  String.mk (((s.data.dropWhile Char.isWhitespace).reverse.dropWhile
    Char.isWhitespace).reverse)

/-- JavaScript `s.toUpperCase()`, character by character (ASCII-faithful;
JavaScript additionally maps some non-ASCII letters). -/
def jsToUpper (s : String) : String := String.mk (s.data.map Char.toUpper)

/-- JavaScript `s.startsWith(pre)`. -/
def jsStartsWith (s pre : String) : Bool := pre.data.isPrefixOf s.data

/-- A JavaScript value as far as the extension inspects one: `jnull` stands
for both `null` and `undefined` (the source treats them alike), `jobj`
carries the five fields the source reads from rich-text nodes. -/
inductive JVal where
  | jnull : JVal
  | jbool (b : Bool) : JVal
  | jnum (n : Int) : JVal
  | jstr (s : String) : JVal
  | jobj (type value text url : Option String) (children : Option (List JVal)) : JVal

/-!
`extractTextFromRichText` (Checkout.jsx lines 13–35).  In the source the
node walker has three object branches: `type === 'text'`, `type === 'root'
&& node.children`, and `node.children && Array.isArray(node.children)`.
In the model a present `children` field is always an array, so the `root`
branch and the generic children branch coincide and are written as one.
-/

mutual
/-- `extractFromNode` of the source (lines 17–27): text of a rich-text node.
Falsy nodes and non-object non-string nodes give `""`; a string gives
itself; a `text` node gives `value || text || ''`; a node with a children
array gives the concatenation over its children; anything else gives `""`. -/
def extractFromNode : JVal → String
  | .jnull => ""
  | .jbool _ => ""
  | .jnum _ => ""
  | .jstr s => s
  | .jobj t v x _ c =>
    match c with
    | some cs =>
      if t = some "text" then jsOrS v (jsOrS x "")
      else extractFromChildren cs
    | none =>
      if t = some "text" then jsOrS v (jsOrS x "") else ""

/-- `extractFromChildren` of the source (lines 29–32):
`children.map(extractFromNode).join('')`. -/
def extractFromChildren : List JVal → String
  | [] => ""
  | c :: cs => extractFromNode c ++ extractFromChildren cs
end

/-- `extractTextFromRichText` (lines 13–35): a string is returned as is, a
non-object (or falsy) value gives `""`, an object is walked by
`extractFromNode`. -/
def extractTextFromRichText : JVal → String
  | .jstr s => s
  | .jobj t v x u c => extractFromNode (.jobj t v x u c)
  | _ => ""

/-- The settings object: a read-only map from keys to JavaScript values,
`jnull` meaning the key is absent (or stored as `null`/`undefined`). -/
def Settings := String → JVal

/-- `getStringSetting` (lines 37–46): `null`/`undefined` fall back to the
default; a string is returned as is; an object is plain-text extracted,
falling back to the default when the extraction is empty after trimming;
any other value is coerced by JavaScript `String(value)`. -/
def getStringSetting (settings : Settings) (key : String) (defaultValue : String) : String :=
  match settings key with
  | .jnull => defaultValue
  | .jstr s => s
  | .jobj t v x u c =>
    let extracted := extractTextFromRichText (.jobj t v x u c)
    if extracted ≠ "" ∧ jsTrim extracted ≠ "" then extracted else defaultValue
  | .jbool b => if b then "true" else "false"
  | .jnum n => toString n

/-- `getBooleanSetting` (lines 48–51): the stored value when it is exactly a
boolean, the default otherwise. -/
def getBooleanSetting (settings : Settings) (key : String) (defaultValue : Bool) : Bool :=
  match settings key with
  | .jbool b => b
  | _ => defaultValue

/-!
`parseRichTextLabel` (lines 66–158).  `convertNode` returns, per the source,
either `null`, a string, a rendered element (`<s-text emphasis="bold">…`,
`<s-text emphasis="italic">…`, `<s-link …>`), or an array of such results.
`RVal` models that return type.  React keys (`boldKey`, `linkKey`, …) are
render-host bookkeeping derived from a per-call counter and carry no
rendered content; they are not modelled.
-/

/-- The result of `convertNode`: `null`, a string, a bold/italic element
wrapping converted children, a link element (href, target, display text),
or an array of results. -/
inductive RVal where
  | rnull : RVal
  | rstr (s : String) : RVal
  | rbold (content : List RVal) : RVal
  | ritalic (content : List RVal) : RVal
  | rlink (href target text : String) : RVal
  | rarr (items : List RVal) : RVal

/-- JavaScript truthiness of a `convertNode` result, as used by
`.filter(Boolean)`: `null` and `""` are falsy, elements and arrays (even
empty ones) are truthy. -/
def jsTruthy : RVal → Bool
  | .rnull => false
  | .rstr s => s ≠ ""
  | _ => true

mutual
/-- JavaScript string coercion of a `convertNode` result as performed by
`Array.prototype.join('')` (line 116): strings coerce to themselves,
rendered elements (plain objects) to `"[object Object]"`, nested arrays to
their comma-joined coercions with `null` coercing to `""` inside a join. -/
def rvalJoinStr : RVal → String
  | .rnull => ""
  | .rstr s => s
  | .rbold _ => "[object Object]"
  | .ritalic _ => "[object Object]"
  | .rlink _ _ _ => "[object Object]"
  | .rarr items => rvalJoinList "," items

/-- `Array.prototype.join(sep)` over coerced elements: the separator is
placed between consecutive elements. -/
def rvalJoinList (sep : String) : List RVal → String
  | [] => ""
  | x :: xs => rvalJoinStr x ++ (if xs.isEmpty then "" else sep) ++ rvalJoinList sep xs
end

/-- `array.filter(Boolean).join('')` as applied to converted link children
(line 116). -/
def joinConverted (l : List RVal) : String := rvalJoinList "" (l.filter jsTruthy)

mutual
/-- `convertNode` (lines 73–141): falsy nodes give `null`; strings give
themselves; other primitives are `String(node)`-coerced; `text` nodes give
`value || text || ''`; `bold`/`italic` wrap their filtered converted
children (or `[value || text || '']` when no children array); `link` builds
a link element; any other node with a children array yields the filtered
array of converted children; everything else gives `null`. -/
def convertNode : JVal → RVal
  | .jnull => .rnull
  | .jbool b => if b then .rstr "true" else .rnull
  | .jnum n => if n = 0 then .rnull else .rstr (toString n)
  | .jstr s => if s = "" then .rnull else .rstr s
  | .jobj t v x u c =>
    if t = some "text" then .rstr (jsOrS v (jsOrS x ""))
    else if t = some "bold" then
      .rbold (match c with
        | some cs => (convertList cs).filter jsTruthy
        | none => [.rstr (jsOrS v (jsOrS x ""))])
    else if t = some "italic" then
      .ritalic (match c with
        | some cs => (convertList cs).filter jsTruthy
        | none => [.rstr (jsOrS v (jsOrS x ""))])
    else if t = some "link" then
      let linkText := match c with
        | some cs => joinConverted (convertList cs)
        | none => jsOrS v (jsOrS x (jsOrS u ""))
      .rlink (jsOrS u "#")
             (if (Option.any (fun s => jsStartsWith s "http") u) then "_blank" else "_self")
             (jsOr linkText (jsOrS u "link"))
    else match c with
      | some cs => .rarr ((convertList cs).filter jsTruthy)
      | none => .rnull

/-- `children.map(convertNode)` over a children array. -/
def convertList : List JVal → List RVal
  | [] => []
  | n :: ns => convertNode n :: convertList ns
end

mutual
/-- `flatten` (lines 146–153): a non-array becomes a one-element list; an
array is reduced left to right by `flattenList`. -/
def flattenR : RVal → List RVal
  | .rarr items => flattenList items
  | v => [v]

/-- The `reduce` of `flatten` over an array's items: each item contributes
its `flattenHead` and the rest follows. -/
def flattenList : List RVal → List RVal
  | [] => []
  | item :: rest => flattenHead item ++ flattenList rest

/-- The `reduce` body (lines 148–152): `null`, `undefined` and `""` are
skipped, a nested array is spliced via `flatten`, anything else is appended
as is. -/
def flattenHead : RVal → List RVal
  | .rnull => []
  | .rstr s => if s = "" then [] else [.rstr s]
  | .rarr items => flattenList items
  | v => [v]
end

/-- The final filter of line 155: keep items that are not `null`,
`undefined` or `""`.  On `RVal` this coincides with truthiness, since
`convertNode` never produces number or boolean results. -/
def keepItem : RVal → Bool
  | .rnull => false
  | .rstr s => s ≠ ""
  | _ => true

/-- The default label fragment (lines 68 and 157). -/
def defaultLabel : RVal := .rstr "I agree to the terms and conditions"

/-- `parseRichTextLabel` (lines 66–158): falsy or non-object input returns
`[input]` when the input is a string and `[default]` otherwise; an object
is converted, flattened and filtered, falling back to `[default]` when
nothing remains. -/
def parseRichTextLabel : JVal → List RVal
  | .jstr s => [.rstr s]
  | .jobj t v x u c =>
    let result := convertNode (.jobj t v x u c)
    let flattened := (flattenR result).filter keepItem
    if flattened.length > 0 then flattened else [defaultLabel]
  | _ => [defaultLabel]

/-!
Visibility evaluator: `shouldShowCheckbox` (lines 193–244) and the cart-line
normalization it contains (lines 206–211).
-/

/-- An object exposing an `id` field, as reached by `…variant?.id`. -/
structure VariantRef where
  id : Option String

/-- The `merchandise` object of a cart line: may expose `id` directly and a
nested `variant` object. -/
structure Merchandise where
  id : Option String
  variant : Option VariantRef

/-- A cart line object: may expose `merchandise` and a top-level `variant`. -/
structure CartLineObj where
  merchandise : Option Merchandise
  variant : Option VariantRef

/-- A cart line as the source receives it: possibly `null`/`undefined`
(guarded by `line?.`). -/
def CartLine := Option CartLineObj

/-- Lines 207–210: `line?.merchandise?.id || line?.merchandise?.variant?.id
|| line?.variant?.id || ''` — optional chaining yields `undefined` on a
missing step, and `||` skips empty strings. -/
def normalizeCartLine (line : CartLine) : String :=
  jsOrS (line.bind fun l => l.merchandise.bind fun m => m.id)
    (jsOrS (line.bind fun l => (l.merchandise.bind fun m => m.variant).bind fun v => v.id)
      (jsOrS (line.bind fun l => l.variant.bind fun v => v.id) ""))

/-- Lines 206–211: normalized variant ids of the cart, dropping lines whose
normalization is empty (`filter(id => id)`). -/
def cartVariantIds (cartLines : List CartLine) : List String :=
  (cartLines.map normalizeCartLine).filter (fun id => id ≠ "")

/-- Lines 201–203: `variant_selection.split(',').map(trim).filter(nonempty)`. -/
def parseVariantSelection (variantSelection : String) : List String :=
  ((jsSplit ',' variantSelection).map jsTrim).filter (fun v => v.length > 0)

/-- Lines 217–219 / 227–228: a cart variant id matches a selector when the
strings are equal or either contains the other (`includes` both ways). -/
def variantIdMatches (cartVariantId selectedVariant : String) : Bool :=
  cartVariantId = selectedVariant ||
  strIncludes cartVariantId selectedVariant ||
  strIncludes selectedVariant cartVariantId

/-- Lines 196–233: the variant filter.  `variantMatch` stays `true` when
`variant_selection` is falsy or parses to no selectors; otherwise `some`
(any) or `every` (all) over the selectors, each matched against some cart
variant id. -/
def variantFilter (variantSelection : String) (matchAnyVariant : Bool)
    (cartLines : List CartLine) : Bool :=
  if variantSelection ≠ "" then
    let selectedVariants := parseVariantSelection variantSelection
    if selectedVariants.length > 0 then
      let ids := cartVariantIds cartLines
      if matchAnyVariant then
        selectedVariants.any (fun sv => ids.any (fun cid => variantIdMatches cid sv))
      else
        selectedVariants.all (fun sv => ids.any (fun cid => variantIdMatches cid sv))
    else true
  else true

/-- Lines 236–238: `country_selection.split(',').map(c =>
c.trim().toUpperCase()).filter(c => c)`. -/
def parseCountrySelection (countrySelection : String) : List String :=
  ((jsSplit ',' countrySelection).map (fun c => jsToUpper (jsTrim c))).filter
    (fun c => c ≠ "")

/-- Lines 197, 235–241: the country filter.  `countryMatch` stays `true`
unless both `country_selection` and the country code are truthy; then it
passes when the parsed selection is empty or contains the uppercased
current code. -/
def countryFilter (countrySelection countryCode : String) : Bool :=
  if countrySelection ≠ "" ∧ countryCode ≠ "" then
    let selectedCountries := parseCountrySelection countrySelection
    selectedCountries.length = 0 || selectedCountries.contains (jsToUpper countryCode)
  else true

/-- `shouldShowCheckbox` (lines 193–244): the AND of the variant filter and
the country filter, with `variant_selection`, `match_any_variant` and
`country_selection` read from the settings as the component does (lines 62,
63, 194). -/
def shouldShowCheckbox (settings : Settings) (cartLines : List CartLine)
    (countryCode : String) : Bool :=
  let variantSelection := getStringSetting settings "variant_selection" ""
  let matchAnyVariant := getBooleanSetting settings "match_any_variant" true
  let countrySelection := getStringSetting settings "country_selection" ""
  variantFilter variantSelection matchAnyVariant cartLines &&
    countryFilter countrySelection countryCode

/-!
Checkout intercept controller: the `useBuyerJourneyIntercept` handler
(lines 249–278).  The decision's `perform` callback receives the finalized
decision and mutates `showError`; it is modelled as an optional function
from the finalized behavior and old `showError` to the new `showError`.
Note that the `!shouldShow` branch returns a decision with *no* `perform`
callback.
-/

/-- An intercept decision's behavior. -/
inductive Behavior where
  | allow : Behavior
  | block : Behavior
deriving DecidableEq

/-- The object returned by the intercept handler: behavior, optional reason,
error messages, and the optional `perform` finalization callback (finalized
behavior → old `showError` → new `showError`). -/
structure InterceptResult where
  behavior : Behavior
  reason : Option String
  errors : List String
  perform : Option (Behavior → Bool → Bool)

/-- The intercept handler body (lines 250–277): visibility false → bare
`allow`; blocking permitted and required and unchecked → `block` with
reason `"Checkbox not checked"`, one error with the configured message, and
a `perform` that sets `showError` when the finalized behavior is `block`;
otherwise `allow` with a `perform` that clears `showError`. -/
def interceptHandler (shouldShow checkboxRequired isChecked : Bool)
    (blockErrorMessage : String) (canBlockProgress : Bool) : InterceptResult :=
  if ¬shouldShow then
    { behavior := .allow, reason := none, errors := [], perform := none }
  else if canBlockProgress ∧ checkboxRequired ∧ ¬isChecked then
    { behavior := .block
      reason := some "Checkbox not checked"
      errors := [blockErrorMessage]
      perform := some (fun result old => if result = .block then true else old) }
  else
    { behavior := .allow, reason := none, errors := [],
      perform := some (fun _ _ => false) }

/-- Finalization of a decision by the host: the `perform` callback, when
present, is invoked with the decision's own behavior and updates
`showError`; with no callback `showError` is unchanged. -/
def finalizeDecision (r : InterceptResult) (oldShowError : Bool) : Bool :=
  match r.perform with
  | none => oldShowError
  | some f => f r.behavior oldShowError

/-!
Extension shell (`Extension`, lines 10–322): what a render pass produces —
nothing, the unsupported-attributes banner, or the checkbox row — and
whether the buyer-journey intercept handler is registered during that pass
(the `hideCheckbox` and banner early returns at lines 181–191 come *before*
`useBuyerJourneyIntercept` at line 249).
-/

/-- What one render pass of `Extension` displays. -/
inductive RenderResult where
  | nothing : RenderResult
  | banner : RenderResult
  | checkbox (label : List RVal) (checked defaultChecked required : Bool)
      (error : Option String) : RenderResult

/-- The outcome of one render pass: the rendered UI and the intercept
handler registered during the pass, if any. -/
structure ExtensionOutput where
  render : RenderResult
  intercept : Option (Bool → InterceptResult)

/-- One render pass of `Extension` as a function of the settings, the host
capability flag, the component state (`isChecked`, `showError`) and the
subscribed data (`cartLines`, `countryCode`). -/
def runExtension (settings : Settings) (canUpdateAttributes : Bool)
    (isChecked showError : Bool) (cartLines : List CartLine)
    (countryCode : String) : ExtensionOutput :=
  let hideCheckbox := getBooleanSetting settings "hide_checkbox" false
  let defaultChecked := getBooleanSetting settings "checkbox_default_checked" false
  let checkboxRequired := getBooleanSetting settings "checkbox_required" false
  let blockErrorMessage :=
    getStringSetting settings "block_error_message" "Please accept the terms to continue"
  if hideCheckbox then { render := .nothing, intercept := none }
  else if ¬canUpdateAttributes then { render := .banner, intercept := none }
  else
    let shouldShow := shouldShowCheckbox settings cartLines countryCode
    let handler := interceptHandler shouldShow checkboxRequired isChecked blockErrorMessage
    if ¬shouldShow then { render := .nothing, intercept := some handler }
    else
      { render := .checkbox (parseRichTextLabel (settings "checkbox_label"))
          isChecked defaultChecked checkboxRequired
          (if showError then some blockErrorMessage else none)
        intercept := some handler }

/-- The host's view of a render pass's progression gate: with no handler
registered progression is allowed; otherwise the handler's behavior. -/
def interceptOutcome (o : ExtensionOutput) (canBlockProgress : Bool) : Behavior :=
  match o.intercept with
  | none => .allow
  | some h => (h canBlockProgress).behavior

/-!
Specification-side definitions: the vocabulary the specification's claims
are phrased in (fragment text, text-only documents, document-order text
concatenation, first-non-empty path selection), to be related to the
source-translated functions above.
-/

mutual
/-- The text carried by a rendered fragment: a string is itself, bold and
italic elements carry their content's text, a link carries its display
text, an array carries the concatenation over its items. -/
def fragText : RVal → String
  | .rnull => ""
  | .rstr s => s
  | .rbold content => fragsText content
  | .ritalic content => fragsText content
  | .rlink _ _ text => text
  | .rarr items => fragsText items

/-- Concatenated text of a fragment sequence. -/
def fragsText : List RVal → String
  | [] => ""
  | f :: fs => fragText f ++ fragsText fs
end

mutual
/-- A rich-text document whose leaf nodes are all `text` nodes sitting
under root/container nodes: an object of type `text`, or an object of any
type other than `text`/`bold`/`italic`/`link` with a children array of
such documents. -/
def textOnly : JVal → Bool
  | .jobj t _ _ _ c =>
    if t = some "text" then true
    else if t = some "bold" ∨ t = some "italic" ∨ t = some "link" then false
    else match c with
      | some cs => textOnlyList cs
      | none => false
  | _ => false

/-- All members of a children array are text-only documents. -/
def textOnlyList : List JVal → Bool
  | [] => true
  | c :: cs => textOnly c && textOnlyList cs
end

mutual
/-- Specification-side plain-text extraction: the concatenation of the
values of all `text` nodes in document order (a `text` node contributes
`value || text || ''`; any other node contributes the concatenation over
its children, if any). -/
def textConcat : JVal → String
  | .jobj t v x _ c =>
    if t = some "text" then jsOrS v (jsOrS x "")
    else match c with
      | some cs => textConcatList cs
      | none => ""
  | _ => ""

/-- Document-order concatenation over a children array. -/
def textConcatList : List JVal → String
  | [] => ""
  | c :: cs => textConcat c ++ textConcatList cs
end

mutual
/-- A well-formed rich-text document value: an object whose children, if
present, are themselves well-formed, or `null`; bare strings, numbers and
booleans do not occur as nodes.  On these the source's extraction visits
exactly the `text` nodes in document order. -/
def isRichDoc : JVal → Bool
  | .jnull => true
  | .jbool _ => false
  | .jnum _ => false
  | .jstr _ => false
  | .jobj _ _ _ _ c =>
    match c with
    | some cs => isRichDocList cs
    | none => true

/-- All members of a children array are well-formed document values. -/
def isRichDocList : List JVal → Bool
  | [] => true
  | c :: cs => isRichDoc c && isRichDocList cs
end

/-- Structural induction over `JVal` together with children lists. -/
theorem jvalInductionOn (motive : JVal → Prop) (motiveL : List JVal → Prop)
    (hnull : motive .jnull) (hbool : ∀ b, motive (.jbool b))
    (hnum : ∀ n, motive (.jnum n)) (hstr : ∀ s, motive (.jstr s))
    (hobjN : ∀ t v x u, motive (.jobj t v x u none))
    (hobjS : ∀ t v x u cs, motiveL cs → motive (.jobj t v x u (some cs)))
    (hnil : motiveL []) (hcons : ∀ c cs, motive c → motiveL cs → motiveL (c :: cs)) :
    ∀ v, motive v :=
  @JVal.rec motive
    (fun c => match c with | none => True | some cs => motiveL cs)
    motiveL
    hnull hbool hnum hstr
    (fun t v x u c hc =>
      match c, hc with
      | none, _ => hobjN t v x u
      | some cs, hcs => hobjS t v x u cs hcs)
    True.intro
    (fun _ hcs => hcs)
    hnil hcons

/-- Structural induction over `RVal` together with content lists. -/
theorem rvalInductionOn (motive : RVal → Prop) (motiveL : List RVal → Prop)
    (hnull : motive .rnull) (hstr : ∀ s, motive (.rstr s))
    (hbold : ∀ content, motiveL content → motive (.rbold content))
    (hitalic : ∀ content, motiveL content → motive (.ritalic content))
    (hlink : ∀ href target text, motive (.rlink href target text))
    (harr : ∀ items, motiveL items → motive (.rarr items))
    (hnil : motiveL []) (hcons : ∀ f fs, motive f → motiveL fs → motiveL (f :: fs)) :
    ∀ v, motive v :=
  @RVal.rec motive motiveL hnull hstr hbold hitalic hlink harr hnil hcons

/-! Supporting lemmas. -/

theorem fragsText_append (a b : List RVal) :
    fragsText (a ++ b) = fragsText a ++ fragsText b := by
  induction a with
  | nil => simp [fragsText]
  | cons f fs ih => simp [fragsText, ih, String.append_assoc]

theorem fragText_of_not_jsTruthy (v : RVal) (h : jsTruthy v = false) :
    fragText v = "" := by
  cases v <;> simp_all [jsTruthy, fragText]

theorem fragsText_filter_jsTruthy (l : List RVal) :
    fragsText (l.filter jsTruthy) = fragsText l := by
  induction l with
  | nil => rfl
  | cons f fs ih =>
    by_cases h : jsTruthy f = true
    · simp [List.filter, h, fragsText, ih]
    · simp only [Bool.not_eq_true] at h
      simp [List.filter, h, fragsText, ih, fragText_of_not_jsTruthy f h]

theorem keepItem_eq_jsTruthy (v : RVal) : keepItem v = jsTruthy v := by
  cases v <;> rfl

theorem fragsText_filter_keepItem (l : List RVal) :
    fragsText (l.filter keepItem) = fragsText l := by
  have : l.filter keepItem = l.filter jsTruthy := by
    induction l with
    | nil => rfl
    | cons f fs ih => simp [List.filter, keepItem_eq_jsTruthy, ih]
  rw [this, fragsText_filter_jsTruthy]

theorem fragsText_flatten (v : RVal) :
    fragsText (flattenHead v) = fragText v ∧ fragsText (flattenR v) = fragText v := by
  refine rvalInductionOn
    (fun v => fragsText (flattenHead v) = fragText v ∧
      fragsText (flattenR v) = fragText v)
    (fun l => fragsText (flattenList l) = fragsText l)
    ?_ ?_ ?_ ?_ ?_ ?_ ?_ ?_ v
  · simp [flattenHead, flattenR, fragsText, fragText]
  · intro s
    by_cases h : s = "" <;>
      simp [flattenHead, flattenR, fragsText, fragText, h]
  · intro content h
    simp [flattenHead, flattenR, fragsText, fragText]
  · intro content h
    simp [flattenHead, flattenR, fragsText, fragText]
  · intro href target text
    simp [flattenHead, flattenR, fragsText, fragText]
  · intro items h
    simp [flattenHead, flattenR, fragText, h]
  · simp [flattenList, fragsText]
  · intro f fs hf hfs
    simp [flattenList, fragsText_append, hf.1, hfs, fragsText]

theorem convertNode_textOnly (v : JVal) :
    textOnly v = true → fragText (convertNode v) = extractFromNode v := by
  refine jvalInductionOn
    (fun v => textOnly v = true →
      fragText (convertNode v) = extractFromNode v)
    (fun l => textOnlyList l = true →
      fragsText (convertList l) = extractFromChildren l)
    ?_ ?_ ?_ ?_ ?_ ?_ ?_ ?_ v
  · intro h; simp [textOnly] at h
  · intro b h; simp [textOnly] at h
  · intro n h; simp [textOnly] at h
  · intro s h; simp [textOnly] at h
  · intro t v x u h
    by_cases ht : t = some "text"
    · simp [convertNode, extractFromNode, ht, fragText]
    · simp [textOnly, ht] at h
  · intro t v x u cs ih h
    by_cases ht : t = some "text"
    · simp [convertNode, extractFromNode, ht, fragText]
    · have hnb : ¬(t = some "bold" ∨ t = some "italic" ∨ t = some "link") := by
        intro hcontra
        simp [textOnly, ht, hcontra] at h
      have hlist : textOnlyList cs = true := by
        simpa [textOnly, ht, hnb] using h
      have hb : t ≠ some "bold" := fun hc => hnb (Or.inl hc)
      have hi : t ≠ some "italic" := fun hc => hnb (Or.inr (Or.inl hc))
      have hl : t ≠ some "link" := fun hc => hnb (Or.inr (Or.inr hc))
      simp [convertNode, extractFromNode, ht, hb, hi, hl, fragText,
        fragsText_filter_jsTruthy, ih hlist]
  · intro _; rfl
  · intro c cs hc hcs h
    simp only [textOnlyList, Bool.and_eq_true] at h
    simp [convertList, extractFromChildren, fragsText, hc h.1, hcs h.2]

theorem extract_eq_textConcat (v : JVal) :
    isRichDoc v = true → extractFromNode v = textConcat v := by
  refine jvalInductionOn
    (fun v => isRichDoc v = true → extractFromNode v = textConcat v)
    (fun l => isRichDocList l = true →
      extractFromChildren l = textConcatList l)
    ?_ ?_ ?_ ?_ ?_ ?_ ?_ ?_ v
  · intro _; rfl
  · intro b h; simp [isRichDoc] at h
  · intro n h; simp [isRichDoc] at h
  · intro s h; simp [isRichDoc] at h
  · intro t v x u _
    by_cases ht : t = some "text" <;> simp [extractFromNode, textConcat, ht]
  · intro t v x u cs ih h
    have hlist : isRichDocList cs = true := by simpa [isRichDoc] using h
    by_cases ht : t = some "text" <;>
      simp [extractFromNode, textConcat, ht, ih hlist]
  · intro _; rfl
  · intro c cs hc hcs h
    simp only [isRichDocList, Bool.and_eq_true] at h
    simp [extractFromChildren, textConcatList, hc h.1, hcs h.2]

/-! Claim theorems. -/

/-- C1 (amended): for every invocation of the intercept handler, if
visibility, blocking permission and the required flag hold and the checkbox
is unchecked, the decision is `block` with reason `"Checkbox not checked"`
and exactly one error carrying the configured message, and finalizing it
sets `errorVisible`; if visibility holds and any of the other conditions
fails, the decision is `allow` and finalizing it clears `errorVisible`;
if visibility fails, the decision is `allow` but carries no finalization
callback, so `errorVisible` is left unchanged. -/
theorem c1_intercept_decision (ss req chk canBlock old : Bool) (msg : String) :
    (ss = true → canBlock = true → req = true → chk = false →
      (interceptHandler ss req chk msg canBlock).behavior = .block ∧
      (interceptHandler ss req chk msg canBlock).reason = some "Checkbox not checked" ∧
      (interceptHandler ss req chk msg canBlock).errors = [msg] ∧
      finalizeDecision (interceptHandler ss req chk msg canBlock) old = true) ∧
    (ss = true → (canBlock = false ∨ req = false ∨ chk = true) →
      (interceptHandler ss req chk msg canBlock).behavior = .allow ∧
      (interceptHandler ss req chk msg canBlock).errors = [] ∧
      finalizeDecision (interceptHandler ss req chk msg canBlock) old = false) ∧
    (ss = false →
      (interceptHandler ss req chk msg canBlock).behavior = .allow ∧
      (interceptHandler ss req chk msg canBlock).errors = [] ∧
      (interceptHandler ss req chk msg canBlock).perform = none ∧
      finalizeDecision (interceptHandler ss req chk msg canBlock) old = old) := by
  refine ⟨?_, ?_, ?_⟩
  · rintro rfl rfl rfl rfl
    simp [interceptHandler, finalizeDecision]
  · rintro rfl h
    have hcond : ¬(canBlock = true ∧ req = true ∧ chk = false) := by
      rcases h with rfl | rfl | rfl <;> simp
    simp [interceptHandler, hcond, finalizeDecision]
  · rintro rfl
    simp [interceptHandler, finalizeDecision]

/-- C1 witness: concrete blocking invocation. -/
theorem c1_witness :
    (interceptHandler true true false "Please accept" true).behavior = .block ∧
    (interceptHandler true true false "Please accept" true).reason =
      some "Checkbox not checked" ∧
    (interceptHandler true true false "Please accept" true).errors = ["Please accept"] ∧
    finalizeDecision (interceptHandler true true false "Please accept" true) false = true :=
  (c1_intercept_decision true true false true false "Please accept").1 rfl rfl rfl rfl

/-- C1 counterexample: with visibility false the handler returns a bare
`allow` with no `perform` callback, so finalization leaves `errorVisible`
at `true` instead of setting it to `false` as the claim requires. -/
theorem c1_counterexample :
    (interceptHandler false true false "msg" true).behavior = .allow ∧
    finalizeDecision (interceptHandler false true false "msg" true) true = true :=
  ⟨rfl, rfl⟩

/-- C5: with `hide_checkbox = true` the render pass renders nothing,
registers no intercept handler, and checkout progression is always
allowed, regardless of every other input. -/
theorem c5_hide_checkbox (settings : Settings) (canUpd chk shErr : Bool)
    (lines : List CartLine) (cc : String)
    (h : getBooleanSetting settings "hide_checkbox" false = true) :
    (runExtension settings canUpd chk shErr lines cc).render = .nothing ∧
    (runExtension settings canUpd chk shErr lines cc).intercept = none ∧
    (∀ canBlock,
      interceptOutcome (runExtension settings canUpd chk shErr lines cc) canBlock
        = .allow) := by
  refine ⟨?_, ?_, ?_⟩ <;> simp [runExtension, h, interceptOutcome]

/-- C5 witness: concrete settings with `hide_checkbox = true`. -/
theorem c5_witness :
    (runExtension (fun k => if k = "hide_checkbox" then .jbool true else .jnull)
      true false false [] "").render = .nothing ∧
    (runExtension (fun k => if k = "hide_checkbox" then .jbool true else .jnull)
      true false false [] "").intercept = none ∧
    (∀ canBlock,
      interceptOutcome
        (runExtension (fun k => if k = "hide_checkbox" then .jbool true else .jnull)
          true false false [] "") canBlock = .allow) :=
  c5_hide_checkbox _ true false false [] "" (by simp [getBooleanSetting])

/-- C2: a selector matches a cart variant id iff the strings are equal or
either contains the other; with no parsed selectors the variant filter
passes; with `match_any_variant = true` it passes iff some selector
matches some cart variant id, with `false` iff every selector matches some
cart variant id; and on the concrete example `"A,B"` against a cart with
only `"A"`, it passes for any-mode and fails for all-mode. -/
theorem c2_variant_filter (vs : String) (lines : List CartLine) :
    (∀ cid sel : String, variantIdMatches cid sel = true ↔
      (cid = sel ∨ sel.data <:+: cid.data ∨ cid.data <:+: sel.data)) ∧
    (parseVariantSelection vs = [] → ∀ ma, variantFilter vs ma lines = true) ∧
    (parseVariantSelection vs ≠ [] →
      (variantFilter vs true lines = true ↔
        ∃ sel ∈ parseVariantSelection vs, ∃ cid ∈ cartVariantIds lines,
          variantIdMatches cid sel = true)) ∧
    (parseVariantSelection vs ≠ [] →
      (variantFilter vs false lines = true ↔
        ∀ sel ∈ parseVariantSelection vs, ∃ cid ∈ cartVariantIds lines,
          variantIdMatches cid sel = true)) ∧
    variantFilter "A,B" true [some ⟨some ⟨some "A", none⟩, none⟩] = true ∧
    variantFilter "A,B" false [some ⟨some ⟨some "A", none⟩, none⟩] = false := by
  refine ⟨?_, ?_, ?_, ?_, by decide, by decide⟩
  · intro cid sel
    simp [variantIdMatches, strIncludes, Bool.or_eq_true, decide_eq_true_iff]
    tauto
  · intro hp ma
    by_cases hvs : vs = ""
    · simp [variantFilter, hvs]
    · simp [variantFilter, hvs, hp]
  · intro hp
    have hvs : vs ≠ "" := by rintro rfl; exact hp (by decide)
    have hlen : 0 < (parseVariantSelection vs).length := List.length_pos.mpr hp
    simp [variantFilter, hvs, hlen, List.any_eq_true]
  · intro hp
    have hvs : vs ≠ "" := by rintro rfl; exact hp (by decide)
    have hlen : 0 < (parseVariantSelection vs).length := List.length_pos.mpr hp
    simp [variantFilter, hvs, hlen, List.all_eq_true, List.any_eq_true]

/-- C2 witness: a selection that parses to no selectors passes. -/
theorem c2_witness : variantFilter "," true [] = true :=
  (c2_variant_filter "," []).2.1 (by decide) true

/-- C3: the country filter passes when the parsed selection is empty or the
country code is absent, and otherwise passes iff the uppercased current
code is in the parsed selection; with selection `"US,CA"` it passes for
current country `"us"` and fails for `"FR"`; the empty selection always
passes. -/
theorem c3_country_filter (cs cc : String) :
    (parseCountrySelection cs = [] → countryFilter cs cc = true) ∧
    (cc = "" → countryFilter cs cc = true) ∧
    (parseCountrySelection cs ≠ [] → cc ≠ "" →
      (countryFilter cs cc = true ↔ jsToUpper cc ∈ parseCountrySelection cs)) ∧
    countryFilter "US,CA" "us" = true ∧
    countryFilter "US,CA" "FR" = false ∧
    countryFilter "" cc = true := by
  refine ⟨?_, ?_, ?_, by decide, by decide, by simp [countryFilter]⟩
  · intro hp
    by_cases hcs : cs = ""
    · simp [countryFilter, hcs]
    · simp [countryFilter, hcs, hp]
  · rintro rfl
    simp [countryFilter]
  · intro hp hcc
    have hcs : cs ≠ "" := by rintro rfl; exact hp (by decide)
    simp [countryFilter, hcs, hcc, hp, List.elem_iff]

/-- C3 witness: absent country code passes unconditionally. -/
theorem c3_witness : countryFilter "US,CA" "" = true :=
  (c3_country_filter "US,CA" "").2.1 rfl

/-- C10: each cart line is normalized to the first non-empty value of the
three identifier paths `merchandise.id`, `merchandise.variant.id`,
`variant.id` in that priority order (absent paths count as empty), and a
line whose three paths are all absent or empty contributes nothing to
variant matching. -/
theorem c10_cart_line_normalization :
    (∀ line : CartLine,
      normalizeCartLine line =
        ((([line.bind fun l => l.merchandise.bind fun m => m.id,
            line.bind fun l => (l.merchandise.bind fun m => m.variant).bind fun v => v.id,
            line.bind fun l => l.variant.bind fun v => v.id].map
          (fun o => o.getD "")).filter (fun s => s ≠ "")).headD "")) ∧
    (∀ vs ma (line : CartLine) lines, normalizeCartLine line = "" →
      variantFilter vs ma (line :: lines) = variantFilter vs ma lines) := by
  constructor
  · intro line
    rcases line with _ | ⟨m, tv⟩
    · rfl
    rcases m with _ | ⟨mid, mv⟩ <;> rcases tv with _ | ⟨tvid⟩ <;>
      try rcases mv with _ | ⟨mvid⟩
    all_goals
      simp only [normalizeCartLine, jsOrS, jsOr, Option.bind_some, Option.bind_none,
        Option.some_bind, Option.none_bind, List.map, List.filter, Option.getD]
    all_goals
      try rcases mid with _ | mids
    all_goals
      try rcases mvid with _ | mvids
    all_goals
      try rcases tvid with _ | tvids
    all_goals simp [jsOrS, jsOr] <;> split_ifs <;> simp_all
  · intro vs ma line lines h
    have hids : cartVariantIds (line :: lines) = cartVariantIds lines := by
      simp [cartVariantIds, h]
    simp only [variantFilter, hids]

/-- C10 witness: a line with all three paths empty does not affect the
filter. -/
theorem c10_witness :
    variantFilter "A" true [some ⟨some ⟨some "", none⟩, none⟩] =
      variantFilter "A" true [] :=
  c10_cart_line_normalization.2 "A" true _ [] (by decide)

/-- C4 (amended): null/undefined and non-string non-object label inputs
give exactly the default fragment, as does an object input that renders to
nothing; a plain-string input is echoed as its own single fragment (so the
empty-string input gives `[""]`); the output is never empty; and for
object inputs the output contains no null and no empty-string entries. -/
theorem c4_label_fallback :
    (parseRichTextLabel .jnull = [defaultLabel]) ∧
    (∀ b, parseRichTextLabel (.jbool b) = [defaultLabel]) ∧
    (∀ n, parseRichTextLabel (.jnum n) = [defaultLabel]) ∧
    (∀ s, parseRichTextLabel (.jstr s) = [.rstr s]) ∧
    (∀ v, parseRichTextLabel v ≠ []) ∧
    (∀ t val x u c,
      (flattenR (convertNode (.jobj t val x u c))).filter keepItem = [] →
      parseRichTextLabel (.jobj t val x u c) = [defaultLabel]) ∧
    (∀ t val x u c f, f ∈ parseRichTextLabel (.jobj t val x u c) →
      keepItem f = true) := by
  refine ⟨rfl, fun b => rfl, fun n => rfl, fun s => rfl, ?_, ?_, ?_⟩
  · intro v
    cases v with
    | jstr s => simp [parseRichTextLabel]
    | jobj t val x u c =>
      simp only [parseRichTextLabel]
      split_ifs with h
      · exact List.length_pos.mp h
      · simp
    | jnull => simp [parseRichTextLabel]
    | jbool b => simp [parseRichTextLabel]
    | jnum n => simp [parseRichTextLabel]
  · intro t val x u c h
    simp [parseRichTextLabel, h]
  · intro t val x u c f hf
    simp only [parseRichTextLabel] at hf
    split_ifs at hf with h
    · exact List.of_mem_filter hf
    · simp only [List.mem_singleton] at hf
      subst hf
      rfl

/-- C4 witness: an object rendering to nothing yields the default
fragment. -/
theorem c4_witness :
    parseRichTextLabel (.jobj (some "root") none none none (some [])) =
      [defaultLabel] :=
  c4_label_fallback.2.2.2.2.2.1 (some "root") none none none (some []) (by rfl)

/-- C4 counterexample: the empty-string label input is echoed as `[""]`;
the output contains an empty-string entry and is not the default fragment
sequence the claim requires for inputs that render to nothing. -/
theorem c4_counterexample :
    parseRichTextLabel (.jstr "") = [.rstr ""] ∧
    RVal.rstr "" ∈ parseRichTextLabel (.jstr "") ∧
    parseRichTextLabel (.jstr "") ≠ [defaultLabel] := by
  refine ⟨rfl, ?_, ?_⟩
  · simp [parseRichTextLabel]
  · simp [parseRichTextLabel, defaultLabel]

/-- C6 (amended): for every text-only rich-text document whose extracted
plain text is non-empty, the concatenated text of the renderer's output
fragments equals the plain-text extraction used by the settings accessor.
(When the extraction is empty the renderer falls back to the default
label fragment instead.) -/
theorem c6_renderer_matches_extraction (v : JVal) (htext : textOnly v = true)
    (hne : extractTextFromRichText v ≠ "") :
    fragsText (parseRichTextLabel v) = extractTextFromRichText v := by
  cases v with
  | jnull => simp [textOnly] at htext
  | jbool b => simp [textOnly] at htext
  | jnum n => simp [textOnly] at htext
  | jstr s => simp [textOnly] at htext
  | jobj t val x u c =>
    have hconv : fragText (convertNode (.jobj t val x u c))
        = extractFromNode (.jobj t val x u c) :=
      convertNode_textOnly _ htext
    have hflat :
        fragsText ((flattenR (convertNode (.jobj t val x u c))).filter keepItem)
          = extractFromNode (.jobj t val x u c) := by
      rw [fragsText_filter_keepItem, (fragsText_flatten _).2, hconv]
    by_cases hlen :
        0 < ((flattenR (convertNode (.jobj t val x u c))).filter keepItem).length
    · simpa [parseRichTextLabel, hlen, extractTextFromRichText] using hflat
    · exfalso
      apply hne
      have hnil : (flattenR (convertNode (.jobj t val x u c))).filter keepItem = [] := by
        simpa [List.length_eq_zero] using hlen
      have : extractFromNode (.jobj t val x u c) = "" := by
        rw [← hflat, hnil]; rfl
      simpa [extractTextFromRichText] using this

/-- C6 witness: a concrete text-only document on which renderer and
extraction agree. -/
theorem c6_witness :
    fragsText (parseRichTextLabel (.jobj (some "root") none none none
        (some [.jobj (some "text") (some "I accept the ") none none none,
               .jobj (some "text") none (some "terms") none none]))) =
      extractTextFromRichText (.jobj (some "root") none none none
        (some [.jobj (some "text") (some "I accept the ") none none none,
               .jobj (some "text") none (some "terms") none none])) :=
  c6_renderer_matches_extraction _ (by rfl) (by decide)

/-- C6 counterexample: a text-only document whose only text value is the
empty string: extraction gives `""` while the renderer falls back to the
default label, so the joined output differs from the extraction. -/
theorem c6_counterexample :
    textOnly (.jobj (some "root") none none none
      (some [.jobj (some "text") (some "") none none none])) = true ∧
    fragsText (parseRichTextLabel (.jobj (some "root") none none none
        (some [.jobj (some "text") (some "") none none none]))) ≠
      extractTextFromRichText (.jobj (some "root") none none none
        (some [.jobj (some "text") (some "") none none none])) := by
  refine ⟨rfl, ?_⟩
  decide

/-- C7 (amended): `getString` returns the stored value when it is a string;
on a well-formed rich-text document value it returns the document-order
concatenation of the `text` node values, falling back to the default when
that concatenation is empty or whitespace-only; on an absent value it
returns the default; and a stored number or boolean is coerced to its
JavaScript string representation (not replaced by the default). -/
theorem c7_getString_behavior (settings : Settings) (key d : String) :
    (settings key = .jnull → getStringSetting settings key d = d) ∧
    (∀ s, settings key = .jstr s → getStringSetting settings key d = s) ∧
    (∀ t v x u c, settings key = .jobj t v x u c →
      isRichDoc (.jobj t v x u c) = true →
      ((jsTrim (textConcat (.jobj t v x u c)) ≠ "" →
          getStringSetting settings key d = textConcat (.jobj t v x u c)) ∧
       (jsTrim (textConcat (.jobj t v x u c)) = "" →
          getStringSetting settings key d = d))) ∧
    (∀ b, settings key = .jbool b →
      getStringSetting settings key d = (if b then "true" else "false")) ∧
    (∀ n, settings key = .jnum n → getStringSetting settings key d = toString n) := by
  refine ⟨?_, ?_, ?_, ?_, ?_⟩
  · intro h; simp [getStringSetting, h]
  · intro s h; simp [getStringSetting, h]
  · intro t v x u c h hdoc
    have hx : extractTextFromRichText (.jobj t v x u c)
        = textConcat (.jobj t v x u c) := by
      simpa [extractTextFromRichText] using extract_eq_textConcat _ hdoc
    constructor
    · intro hne
      have hne' : textConcat (.jobj t v x u c) ≠ "" := by
        intro h0
        apply hne
        rw [h0]; rfl
      simp [getStringSetting, h, hx, hne, hne']
    · intro h0
      simp [getStringSetting, h, hx, h0]
  · intro b h; simp [getStringSetting, h]
  · intro n h; simp [getStringSetting, h]

/-- C7 witness: concrete settings exercising the string case and the
rich-text case. -/
theorem c7_witness :
    getStringSetting (fun _ => .jstr "hello") "block_error_message" "d" = "hello" :=
  (c7_getString_behavior (fun _ => .jstr "hello") "block_error_message" "d").2.1
    "hello" rfl

/-- C7 counterexample: a boolean stored under the key is coerced to
`"true"` by `String(value)` rather than falling back to the given
default, refuting the mistyped-value clause of the claim. -/
theorem c7_counterexample :
    getStringSetting (fun k => if k = "block_error_message" then .jbool true else .jnull)
      "block_error_message" "fallback" = "true" ∧
    ("true" : String) ≠ "fallback" := by
  constructor
  · rfl
  · decide

/-- C8 (amended): every `link` node renders to a link fragment whose url is
the node's url when that is a non-empty string and `"#"` when the url is
absent or empty; whose target is `"_blank"` iff the url string starts with
`"http"`, and `"_self"` otherwise; and whose displayed text is, when a
children array is present, the join of the converted children falling back
to the url and then to the literal `"link"`; with no children array the
displayed text falls back through the node's value, text and url fields
and then `"link"`. -/
theorem c8_link_rendering (v x u : Option String) (c : Option (List JVal)) :
    ∃ href target txt,
      convertNode (.jobj (some "link") v x u c) = .rlink href target txt ∧
      ((u = none ∨ u = some "") → href = "#") ∧
      (∀ s, u = some s → s ≠ "" → href = s) ∧
      ((target = "_blank") ↔ (∃ s, u = some s ∧ jsStartsWith s "http" = true)) ∧
      (target = "_blank" ∨ target = "_self") ∧
      (∀ cs, c = some cs →
        (joinConverted (convertList cs) ≠ "" →
          txt = joinConverted (convertList cs)) ∧
        (joinConverted (convertList cs) = "" →
          ((∀ s, u = some s → s ≠ "" → txt = s) ∧
           ((u = none ∨ u = some "") → txt = "link")))) ∧
      (c = none → txt = jsOr (jsOrS v (jsOrS x (jsOrS u ""))) (jsOrS u "link")) := by
  refine ⟨jsOrS u "#",
    if Option.any (fun s => jsStartsWith s "http") u then "_blank" else "_self",
    jsOr (match c with
          | some cs => joinConverted (convertList cs)
          | none => jsOrS v (jsOrS x (jsOrS u "")))
      (jsOrS u "link"),
    ?_, ?_, ?_, ?_, ?_, ?_, ?_⟩
  · cases c <;> simp [convertNode]
  · rintro (rfl | rfl) <;> simp [jsOrS, jsOr]
  · rintro s rfl hne
    simp [jsOrS, jsOr, hne]
  · cases u with
    | none => simp
    | some s =>
      by_cases h : jsStartsWith s "http" = true <;> simp [Option.any, h]
  · split_ifs <;> simp
  · rintro cs rfl
    constructor
    · intro hne
      simp [jsOr, hne]
    · intro h0
      simp only [h0]
      constructor
      · rintro s rfl hne
        simp [jsOr, jsOrS, hne]
      · rintro (rfl | rfl) <;> simp [jsOr, jsOrS]
  · rintro rfl
    rfl

/-- C8 witness: a concrete external link with child text. -/
theorem c8_witness :
    convertNode (.jobj (some "link") none none (some "https://example.com")
      (some [.jstr "Terms"])) = .rlink "https://example.com" "_blank" "Terms" := by
  obtain ⟨href, target, txt, heq, habs, hpres, hblank, hts, hchild, hnoc⟩ :=
    c8_link_rendering none none (some "https://example.com") (some [.jstr "Terms"])
  have h1 : href = "https://example.com" := hpres _ rfl (by decide)
  have h2 : target = "_blank" := hblank.mpr ⟨_, rfl, by decide⟩
  have h3 : txt = "Terms" := by
    rw [(hchild _ rfl).1 (by decide)]
    rfl
  rw [heq, h1, h2, h3]

/-- C8 counterexample: a childless link node with value `"V"` and the empty
string as url.  The claim predicts url `""` (the node's url) and displayed
text `"link"` (children join empty, url empty); the code renders href `"#"`
and displayed text `"V"` (the `value` fallback the claim omits). -/
theorem c8_counterexample :
    convertNode (.jobj (some "link") (some "V") none (some "") none) =
      .rlink "#" "_self" "V" := rfl

/-- C9: the visibility evaluator and the rich-text renderer are
deterministic pure functions: repeated calls on identical inputs give
identical results, and the evaluator's result depends on the settings only
through the three keys it reads. -/
theorem c9_purity :
    (∀ (settings : Settings) (lines : List CartLine) (cc : String),
      shouldShowCheckbox settings lines cc = shouldShowCheckbox settings lines cc) ∧
    (∀ l, parseRichTextLabel l = parseRichTextLabel l) ∧
    (∀ (s₁ s₂ : Settings) (lines : List CartLine) (cc : String),
      s₁ "variant_selection" = s₂ "variant_selection" →
      s₁ "match_any_variant" = s₂ "match_any_variant" →
      s₁ "country_selection" = s₂ "country_selection" →
      shouldShowCheckbox s₁ lines cc = shouldShowCheckbox s₂ lines cc) := by
  refine ⟨fun _ _ _ => rfl, fun _ => rfl, ?_⟩
  intro s₁ s₂ lines cc h1 h2 h3
  have e1 : getStringSetting s₁ "variant_selection" ""
      = getStringSetting s₂ "variant_selection" "" := by
    unfold getStringSetting
    rw [h1]
  have e2 : getBooleanSetting s₁ "match_any_variant" true
      = getBooleanSetting s₂ "match_any_variant" true := by
    unfold getBooleanSetting
    rw [h2]
  have e3 : getStringSetting s₁ "country_selection" ""
      = getStringSetting s₂ "country_selection" "" := by
    unfold getStringSetting
    rw [h3]
  simp only [shouldShowCheckbox]
  rw [e1, e2, e3]

/-- C9 witness: two settings maps that differ outside the three keys the
evaluator reads give the same visibility verdict. -/
theorem c9_witness :
    shouldShowCheckbox (fun _ => .jnull) [] "US" =
      shouldShowCheckbox
        (fun k => if k = "hide_checkbox" then .jbool true else .jnull) [] "US" :=
  c9_purity.2.2 (fun _ => .jnull)
    (fun k => if k = "hide_checkbox" then .jbool true else .jnull) [] "US"
    (by simp) (by simp) (by simp)

end Checkout
